import Mathlib

/-!
# Verification of the nanoclaw orchestrator core

Shallow embedding of the TypeScript sources:
* `src/main-agent-manager.ts` — persistent worker lifecycle manager
  (`MainAgentManager`): request-correlation table, timeout handling,
  crash handling with restart backoff.
* `src/container-common.ts` (`TaskManager`) — subagent admission control
  and mailbox (IPC) command processing.
* `src/index.ts` — IPC message authorization, task-command processing,
  Telegram `sendMessage` chunk splitting.
* agent runner (`runPersistentMode`) — container-side session pinning.

External collaborators (the cron parser library, JavaScript `Date`
parsing, the database, Docker) are modelled as parameters/oracles; all
control flow is translated from the sources.
-/

namespace Nanoclaw

/-! ## Persistent worker lifecycle manager (`main-agent-manager.ts`) -/

/-- `maxRestartAttempts` field of `MainAgentManager` (line 37). -/
def maxRestartAttempts : Nat := 3

/-- State of a `MainAgentManager` instance.  The `pendingRequests` map is
represented as an association list `requestId ↦ timeout-timer id`; the
`resolve`/`reject` callbacks are represented by the `Completion` outputs a
step produces.  `container` records whether the worker handle is non-null. -/
structure MgrState where
  container : Bool
  pendingRequests : List (String × Nat)
  restartAttempts : Nat
  isShuttingDown : Bool
deriving DecidableEq, Repr

/-- A settlement of one pending correlation promise. -/
inductive Completion where
  | resolved (requestId : String) (result : Option String) (newSessionId : Option String)
  | rejected (requestId : String) (error : String)
deriving DecidableEq, Repr

/-- The requestId a completion settles. -/
def Completion.rid : Completion → String
  | .resolved r _ _ => r
  | .rejected r _ => r

/-- Side effects of one manager step: promise settlements, `clearTimeout`
calls, a scheduled restart delay (ms), and the `fatal-crash` emission. -/
structure StepOut where
  completions : List Completion
  clearedTimers : List Nat
  restartDelayMs : Option Nat
  fatalCrash : Bool
deriving DecidableEq, Repr

def StepOut.empty : StepOut :=
  { completions := [], clearedTimers := [], restartDelayMs := none, fatalCrash := false }

/-- A line of the persistent worker wire protocol
(`PersistentContainerResponse`). -/
structure ContainerResponse where
  requestId : String
  status : String
  result : Option String
  newSessionId : Option String
  error : Option String
deriving DecidableEq, Repr

/-- `Map.delete` on the pending table (keys are unique). -/
def removeKey (id : String) (l : List (String × Nat)) : List (String × Nat) :=
  l.filter (fun p => p.1 ≠ id)

/-- The requestIds present in the pending table. -/
def MgrState.keys (s : MgrState) : List String :=
  s.pendingRequests.map (·.1)

/-- `MainAgentManager.handleResponse` (lines 289–318): look up the pending
correlation for `response.requestId`; if absent, log and drop; otherwise
clear its timer, delete the entry and resolve (status `success`) or reject
(the response error, defaulting to `Unknown error`). -/
def handleResponse (s : MgrState) (r : ContainerResponse) : MgrState × StepOut :=
  match s.pendingRequests.lookup r.requestId with
  | none => (s, StepOut.empty)
  | some timer =>
    let s1 := { s with pendingRequests := removeKey r.requestId s.pendingRequests }
    let c : Completion :=
      if r.status = "success" then
        .resolved r.requestId r.result r.newSessionId
      else
        .rejected r.requestId (r.error.getD "Unknown error")
    (s1, { StepOut.empty with completions := [c], clearedTimers := [timer] })

/-- The timeout callback registered by `MainAgentManager.query`
(lines 95–98): delete the entry and reject with `Request timeout`.
Nothing else of the manager state is touched. -/
def handleTimeout (s : MgrState) (requestId : String) : MgrState × StepOut :=
  ({ s with pendingRequests := removeKey requestId s.pendingRequests },
   { StepOut.empty with completions := [.rejected requestId "Request timeout"] })

/-- `MainAgentManager.handleClose` (lines 320–349): reject every pending
correlation with `Container crashed`, clear every timer, empty the table,
null the worker handle; then, unless shutting down, either schedule a
restart after `2^restartAttempts * 1000` ms and increment the counter, or
emit `fatal-crash`. -/
def handleClose (s : MgrState) : MgrState × StepOut :=
  let rejections := s.pendingRequests.map (fun p => Completion.rejected p.1 "Container crashed")
  let cleared := s.pendingRequests.map (·.2)
  let s1 := { s with pendingRequests := [], container := false }
  if s1.isShuttingDown then
    (s1, { StepOut.empty with completions := rejections, clearedTimers := cleared })
  else if s1.restartAttempts < maxRestartAttempts then
    ({ s1 with restartAttempts := s1.restartAttempts + 1 },
     { StepOut.empty with
        completions := rejections, clearedTimers := cleared,
        restartDelayMs := some (2 ^ s1.restartAttempts * 1000) })
  else
    (s1, { StepOut.empty with
            completions := rejections, clearedTimers := cleared, fatalCrash := true })

/-- `MainAgentManager.start`, successful spawn path (lines 48–80): no-op
when a container is already running; otherwise spawns the worker and —
after the spawn succeeded — resets `restartAttempts` to 0 (line 75). -/
def start (s : MgrState) : MgrState :=
  if s.container then s
  else { s with container := true, restartAttempts := 0 }

/-- `MainAgentManager.shutdown` (lines 125–165): if already shutting down,
no-op; else mark shutting-down, clear every pending timer, reject every
pending correlation with `Container shutting down`, empty the table and
null the worker handle. -/
def shutdown (s : MgrState) : MgrState × StepOut :=
  if s.isShuttingDown then (s, StepOut.empty)
  else
    let rejections := s.pendingRequests.map (fun p => Completion.rejected p.1 "Container shutting down")
    let cleared := s.pendingRequests.map (·.2)
    ({ s with isShuttingDown := true, pendingRequests := [], container := false },
     { StepOut.empty with completions := rejections, clearedTimers := cleared })

/-- Restart-relevant lifecycle events: the worker process exiting, and a
scheduled restart timer firing with `start()` succeeding. -/
inductive MgrEvent where
  | crash
  | restartFires
deriving DecidableEq, Repr

def mgrStep (s : MgrState) : MgrEvent → MgrState × StepOut
  | .crash => handleClose s
  | .restartFires => (start s, StepOut.empty)

/-- Run a sequence of lifecycle events, collecting each step's output. -/
def mgrRun (s : MgrState) : List MgrEvent → MgrState × List StepOut
  | [] => (s, [])
  | e :: es =>
    let (s1, out) := mgrStep s e
    let (s2, outs) := mgrRun s1 es
    (s2, out :: outs)

/-- A freshly started manager with a live worker and no pending requests. -/
def mgrInit : MgrState :=
  { container := true, pendingRequests := [], restartAttempts := 0, isShuttingDown := false }

/-! ### Association-list lemmas for the pending table -/

theorem lookup_removeKey_self (id : String) (l : List (String × Nat)) :
    (removeKey id l).lookup id = none := by
  induction l with
  | nil => rfl
  | cons p rest ih =>
    obtain ⟨a, v⟩ := p
    by_cases h : a = id
    · have he : removeKey id ((a, v) :: rest) = removeKey id rest := by
        simp [removeKey, List.filter_cons, h]
      rw [he]; exact ih
    · have he : removeKey id ((a, v) :: rest) = (a, v) :: removeKey id rest := by
        simp [removeKey, List.filter_cons, h]
      rw [he, List.lookup_cons]
      have hb : (id == a) = false := by
        simp only [beq_eq_false_iff_ne]
        exact fun e => h e.symm
      rw [hb]
      exact ih

theorem lookup_removeKey_ne {k id : String} (h : k ≠ id) (l : List (String × Nat)) :
    (removeKey id l).lookup k = l.lookup k := by
  induction l with
  | nil => rfl
  | cons p rest ih =>
    obtain ⟨a, v⟩ := p
    by_cases ha : a = id
    · have he : removeKey id ((a, v) :: rest) = removeKey id rest := by
        simp [removeKey, List.filter_cons, ha]
      rw [he, ih, List.lookup_cons]
      have hb : (k == a) = false := by
        simp only [beq_eq_false_iff_ne]
        rw [ha]; exact h
      rw [hb]
    · have he : removeKey id ((a, v) :: rest) = (a, v) :: removeKey id rest := by
        simp [removeKey, List.filter_cons, ha]
      rw [he, List.lookup_cons, List.lookup_cons]
      cases hb : (k == a) with
      | true => rfl
      | false => exact ih

theorem lookup_some_mem_keys {l : List (String × Nat)} {k : String} {v : Nat}
    (h : l.lookup k = some v) : k ∈ l.map (·.1) := by
  induction l with
  | nil => simp at h
  | cons p rest ih =>
    obtain ⟨a, w⟩ := p
    rw [List.lookup_cons] at h
    cases hb : (k == a) with
    | true =>
      have : k = a := by simpa using hb
      simp [this]
    | false =>
      rw [hb] at h
      simp only [List.map, List.mem_cons]
      exact Or.inr (ih h)

theorem keys_removeKey (id : String) (l : List (String × Nat)) :
    (removeKey id l).map (·.1) = (l.map (·.1)).filter (fun k => k ≠ id) := by
  induction l with
  | nil => rfl
  | cons p rest ih =>
    obtain ⟨a, v⟩ := p
    by_cases h : a = id
    · have he : removeKey id ((a, v) :: rest) = removeKey id rest := by
        simp [removeKey, List.filter_cons, h]
      rw [he, ih]
      simp [List.filter_cons, h]
    · have he : removeKey id ((a, v) :: rest) = (a, v) :: removeKey id rest := by
        simp [removeKey, List.filter_cons, h]
      rw [he]
      simp only [List.map]
      rw [ih]
      simp [List.filter_cons, h]

/-! ### Claim theorems about the lifecycle manager -/

/-- **C1.** Evaluating the crash/restart state machine on consecutive
crashes separated by successful automatic restarts. The first conjuncts run
the trace crash, restart, crash, restart, crash, restart, crash (four
consecutive crashes): every crash — the fourth included — schedules a
restart after `2^0 * 1000 = 1000` ms and `fatal-crash` is never emitted,
because `start()` resets `restartAttempts` to 0 on every automatic restart
(line 75), so the counter is 0 at each crash. The last conjunct shows the
restart budget self-resetting: after one crash (counter 1) and one
successful automatic restart, the counter is back to 0. This contradicts
the claimed `2^k`-second backoff after `k` consecutive crashes, the claimed
permanent fallback after 3 consecutive crashes, and the claim that the
budget does not self-reset. -/
theorem C1_restart_budget_resets_on_auto_restart :
    ((mgrRun mgrInit [.crash, .restartFires, .crash, .restartFires,
        .crash, .restartFires, .crash]).2.map (·.restartDelayMs) =
      [some 1000, none, some 1000, none, some 1000, none, some 1000]) ∧
    ((mgrRun mgrInit [.crash, .restartFires, .crash, .restartFires,
        .crash, .restartFires, .crash]).2.map (·.fatalCrash) =
      [false, false, false, false, false, false, false]) ∧
    ((mgrRun mgrInit [.crash]).1.restartAttempts = 1) ∧
    ((mgrRun mgrInit [.crash, .restartFires]).1.restartAttempts = 0) := by
  refine ⟨?_, ?_, ?_, ?_⟩ <;> rfl

/-- **C4.** Correlation integrity of `handleResponse`: a response whose
`requestId` matches a pending correlation completes exactly that one
correlation (resolved on status `success`, rejected otherwise), clears its
timer and removes exactly its entry, leaving every other entry untouched;
a response with an unknown `requestId` leaves the state unchanged and
completes nothing (the handler is total — it never crashes the manager). -/
theorem C4_correlation_integrity (s : MgrState) (r : ContainerResponse) :
    (∀ timer, s.pendingRequests.lookup r.requestId = some timer →
      (handleResponse s r).1.pendingRequests.lookup r.requestId = none ∧
      (∀ k, k ≠ r.requestId →
        (handleResponse s r).1.pendingRequests.lookup k = s.pendingRequests.lookup k) ∧
      (handleResponse s r).2.clearedTimers = [timer] ∧
      (handleResponse s r).2.completions =
        [if r.status = "success" then
            Completion.resolved r.requestId r.result r.newSessionId
          else Completion.rejected r.requestId (r.error.getD "Unknown error")]) ∧
    (s.pendingRequests.lookup r.requestId = none →
      (handleResponse s r).1 = s ∧ (handleResponse s r).2 = StepOut.empty) := by
  constructor
  · intro timer h
    refine ⟨?_, ?_, ?_, ?_⟩
    · simp [handleResponse, h, lookup_removeKey_self]
    · intro k hk
      simp [handleResponse, h, lookup_removeKey_ne hk]
    · simp [handleResponse, h]
    · simp [handleResponse, h]
  · intro h
    simp [handleResponse, h, StepOut.empty]

/-- Concrete two-entry manager state used by the C4 witness. -/
def mgrC4 : MgrState :=
  { container := true, pendingRequests := [("a", 1), ("b", 2)],
    restartAttempts := 0, isShuttingDown := false }

/-- A response matching pending request `a`, for the C4 witness. -/
def respC4 : ContainerResponse :=
  { requestId := "a", status := "success", result := some "ok",
    newSessionId := none, error := none }

/-- A response matching no pending request, for the C4 witness. -/
def respC4unknown : ContainerResponse :=
  { requestId := "zzz", status := "success", result := some "ok",
    newSessionId := none, error := none }

/-- Witness for C4 at a concrete two-entry table: a matching response for
`a` removes `a` and leaves `b` untouched; an unknown id changes nothing. -/
theorem C4_correlation_integrity_witness :
    (handleResponse mgrC4 respC4).1.pendingRequests.lookup "a" = none ∧
    (handleResponse mgrC4 respC4).1.pendingRequests.lookup "b" = some 2 ∧
    (handleResponse mgrC4 respC4unknown).1 = mgrC4 := by
  refine ⟨?_, ?_, ?_⟩
  · exact ((C4_correlation_integrity mgrC4 respC4).1 1 (by decide)).1
  · have h := (((C4_correlation_integrity mgrC4 respC4).1 1 (by decide)).2.1) "b" (by decide)
    rw [h]; decide
  · exact ((C4_correlation_integrity mgrC4 respC4unknown).2 (by decide)).1

/-- **C6.** The request-timeout callback removes exactly the timed-out
correlation, rejects it with `Request timeout`, and touches nothing else:
the worker handle is unchanged (not terminated), no restart is scheduled,
no `fatal-crash` is emitted, and every other pending correlation is
untouched. -/
theorem C6_timeout_leaves_worker_running (s : MgrState) (id : String) :
    (handleTimeout s id).1.container = s.container ∧
    (handleTimeout s id).1.restartAttempts = s.restartAttempts ∧
    (handleTimeout s id).1.isShuttingDown = s.isShuttingDown ∧
    (handleTimeout s id).2.restartDelayMs = none ∧
    (handleTimeout s id).2.fatalCrash = false ∧
    (handleTimeout s id).1.pendingRequests.lookup id = none ∧
    (∀ k, k ≠ id →
      (handleTimeout s id).1.pendingRequests.lookup k = s.pendingRequests.lookup k) ∧
    (handleTimeout s id).2.completions = [Completion.rejected id "Request timeout"] := by
  refine ⟨rfl, rfl, rfl, rfl, rfl, ?_, ?_, rfl⟩
  · exact lookup_removeKey_self id s.pendingRequests
  · intro k hk
    exact lookup_removeKey_ne hk s.pendingRequests

/-- Concrete two-entry manager state used by the C6 witness. -/
def mgrC6 : MgrState :=
  { container := true, pendingRequests := [("a", 1), ("b", 2)],
    restartAttempts := 0, isShuttingDown := false }

/-- Witness for C6: timing out request `a` of a concrete two-entry table
leaves the worker handle live and entry `b` pending. -/
theorem C6_timeout_leaves_worker_running_witness :
    (handleTimeout mgrC6 "a").1.container = true ∧
    (handleTimeout mgrC6 "a").1.pendingRequests.lookup "b" = some 2 := by
  constructor
  · exact (C6_timeout_leaves_worker_running mgrC6 "a").1
  · have h := (C6_timeout_leaves_worker_running mgrC6 "a").2.2.2.2.2.2.1 "b" (by decide)
    rw [h]; decide

/-! ### The pending-table transition system (claim C7) -/

/-- Branch-independent facts about `handleClose`: the pending table is
emptied, the worker handle nulled, every correlation rejected with
`Container crashed` and every timer cleared. -/
theorem handleClose_parts (s : MgrState) :
    (handleClose s).1.pendingRequests = [] ∧
    (handleClose s).1.container = false ∧
    (handleClose s).2.completions =
      s.pendingRequests.map (fun p => Completion.rejected p.1 "Container crashed") ∧
    (handleClose s).2.clearedTimers = s.pendingRequests.map (·.2) := by
  by_cases h1 : s.isShuttingDown <;>
    by_cases h2 : s.restartAttempts < maxRestartAttempts <;>
      simp [handleClose, h1, h2]

/-- The events that touch the correlation table. -/
inductive PendEvent where
  | response (r : ContainerResponse)
  | timeoutFires (requestId : String)
  | close
  | shutdownReq
deriving Repr

/-- One event-loop turn on the correlation table.  Every removal path in
the source clears the removed entry's timeout timer (`clearTimeout`) in
the same turn, so a timeout callback only ever fires while its entry is
still pending; a firing for an absent entry is a cancelled timer, a no-op. -/
def pendStep (s : MgrState) : PendEvent → MgrState × StepOut
  | .response r => handleResponse s r
  | .timeoutFires id =>
    if (s.pendingRequests.lookup id).isSome then handleTimeout s id
    else (s, StepOut.empty)
  | .close => handleClose s
  | .shutdownReq => shutdown s

/-- Run a sequence of correlation-table events, concatenating the promise
settlements each step produces. -/
def runPend (s : MgrState) : List PendEvent → MgrState × List Completion
  | [] => (s, [])
  | e :: es =>
    ((runPend (pendStep s e).1 es).1,
     (pendStep s e).2.completions ++ (runPend (pendStep s e).1 es).2)

theorem keys_after_removal {s : MgrState} {id : String} (hnd : s.keys.Nodup) :
    (∀ k, k ∈ (removeKey id s.pendingRequests).map (·.1) → k ∈ s.keys ∧ k ≠ id) ∧
    ((removeKey id s.pendingRequests).map (·.1)).Nodup := by
  constructor
  · intro k hk
    rw [keys_removeKey] at hk
    refine ⟨List.mem_of_mem_filter hk, ?_⟩
    have := List.of_mem_filter hk
    simpa using this
  · rw [keys_removeKey]
    exact hnd.filter _

/-- Per-step accounting: settlements are distinct, settle only pending
requestIds, and a requestId still pending afterwards was pending before and
was not settled in this step. -/
theorem pendStep_spec (s : MgrState) (e : PendEvent) (hnd : s.keys.Nodup) :
    ((pendStep s e).2.completions.map Completion.rid).Nodup ∧
    (∀ k, k ∈ (pendStep s e).2.completions.map Completion.rid → k ∈ s.keys) ∧
    (∀ k, k ∈ (pendStep s e).1.keys →
      k ∈ s.keys ∧ k ∉ (pendStep s e).2.completions.map Completion.rid) ∧
    (pendStep s e).1.keys.Nodup := by
  cases e with
  | response r =>
    simp only [pendStep]
    cases hl : s.pendingRequests.lookup r.requestId with
    | none =>
      simp only [handleResponse, hl]
      exact ⟨by simp [StepOut.empty], by simp [StepOut.empty],
        fun k hk => ⟨hk, by simp [StepOut.empty]⟩, hnd⟩
    | some timer =>
      obtain ⟨hmem, hnd2⟩ := @keys_after_removal s r.requestId hnd
      simp only [handleResponse, hl]
      refine ⟨?_, ?_, ?_, ?_⟩
      · split <;> simp [Completion.rid]
      · intro k hk
        have : k = r.requestId := by
          revert hk; split <;> simp [Completion.rid]
        rw [this]
        exact lookup_some_mem_keys hl
      · intro k hk
        obtain ⟨h1, h2⟩ := hmem k hk
        refine ⟨h1, ?_⟩
        split <;> simpa [Completion.rid]
      · exact hnd2
  | timeoutFires id =>
    simp only [pendStep]
    by_cases hs : (s.pendingRequests.lookup id).isSome
    · obtain ⟨timer, hl⟩ := Option.isSome_iff_exists.mp hs
      obtain ⟨hmem, hnd2⟩ := @keys_after_removal s id hnd
      rw [if_pos hs]
      refine ⟨by simp [handleTimeout, StepOut.empty, Completion.rid], ?_, ?_, hnd2⟩
      · intro k hk
        have : k = id := by
          simpa [handleTimeout, StepOut.empty, Completion.rid] using hk
        rw [this]
        exact lookup_some_mem_keys hl
      · intro k hk
        obtain ⟨h1, h2⟩ := hmem k hk
        exact ⟨h1, by simpa [handleTimeout, StepOut.empty, Completion.rid]⟩
    · rw [if_neg hs]
      exact ⟨by simp [StepOut.empty], by simp [StepOut.empty],
        fun k hk => ⟨hk, by simp [StepOut.empty]⟩, hnd⟩
  | close =>
    obtain ⟨h1, h2, h3, h4⟩ := handleClose_parts s
    have hkeys : (pendStep s .close).1.keys = [] := by
      simp [pendStep, MgrState.keys, h1]
    have hcs : (pendStep s .close).2.completions.map Completion.rid = s.keys := by
      simp only [pendStep, h3, MgrState.keys, List.map_map]
      rfl
    refine ⟨?_, ?_, ?_, ?_⟩
    · rw [hcs]; exact hnd
    · intro k hk; rw [hcs] at hk; exact hk
    · intro k hk; rw [hkeys] at hk; simp at hk
    · rw [hkeys]; exact List.nodup_nil
  | shutdownReq =>
    simp only [pendStep, shutdown]
    by_cases hs : s.isShuttingDown
    · rw [if_pos hs]
      exact ⟨by simp [StepOut.empty], by simp [StepOut.empty],
        fun k hk => ⟨hk, by simp [StepOut.empty]⟩, hnd⟩
    · rw [if_neg hs]
      have hcs : (s.pendingRequests.map
          (fun p => Completion.rejected p.1 "Container shutting down")).map Completion.rid
          = s.keys := by
        simp only [MgrState.keys, List.map_map]; rfl
      refine ⟨?_, ?_, ?_, ?_⟩
      · show ((s.pendingRequests.map
            (fun p => Completion.rejected p.1 "Container shutting down")).map
              Completion.rid).Nodup
        rw [hcs]; exact hnd
      · intro k hk
        have hk2 : k ∈ (s.pendingRequests.map
            (fun p => Completion.rejected p.1 "Container shutting down")).map
              Completion.rid := hk
        rw [hcs] at hk2
        exact hk2
      · intro k hk
        simp [MgrState.keys] at hk
      · simp [MgrState.keys]

/-- Trace-level accounting: over any event sequence, the settled
requestIds are distinct (each pending correlation is completed at most
once) and every settled id was pending at the start. -/
theorem runPend_spec (tr : List PendEvent) :
    ∀ s : MgrState, s.keys.Nodup →
      ((runPend s tr).2.map Completion.rid).Nodup ∧
      (∀ k, k ∈ (runPend s tr).2.map Completion.rid → k ∈ s.keys) ∧
      (∀ k, k ∈ (runPend s tr).1.keys →
        k ∈ s.keys ∧ k ∉ (runPend s tr).2.map Completion.rid) ∧
      (runPend s tr).1.keys.Nodup := by
  induction tr with
  | nil =>
    intro s h
    exact ⟨by simp [runPend], by simp [runPend], fun k hk => ⟨by simpa [runPend] using hk,
      by simp [runPend]⟩, by simpa [runPend] using h⟩
  | cons e es ih =>
    intro s hnd
    obtain ⟨h1, h2, h3, h4⟩ := pendStep_spec s e hnd
    obtain ⟨g1, g2, g3, g4⟩ := ih (pendStep s e).1 h4
    have hrun : runPend s (e :: es) =
        ((runPend (pendStep s e).1 es).1,
         (pendStep s e).2.completions ++ (runPend (pendStep s e).1 es).2) := rfl
    rw [hrun]
    simp only [List.map_append]
    refine ⟨?_, ?_, ?_, g4⟩
    · refine List.Nodup.append h1 g1 ?_
      intro a ha hb
      exact ((h3 a ((g2 a hb))).2) ha
    · intro k hk
      rcases List.mem_append.mp hk with hk | hk
      · exact h2 k hk
      · exact (h3 k (g2 k hk)).1
    · intro k hk
      obtain ⟨k1, k2⟩ := g3 k hk
      obtain ⟨k3, k4⟩ := h3 k k1
      refine ⟨k3, ?_⟩
      rw [List.mem_append]
      rintro (h | h)
      · exact k4 h
      · exact k2 h

/-- **C7.** When the worker process exits (`handleClose`), every pending
correlation is rejected with a `Container crashed` error, every timeout
timer is cleared, the correlation table is emptied and the worker handle
is nulled; and over any sequence of correlation-table events (responses,
timeout firings, crashes, shutdowns) starting from a well-formed table,
each pending entry is settled at most once and only while pending — never
completed twice, never left in the table after a crash or shutdown. -/
theorem C7_crash_rejects_all_and_settles_once (s : MgrState)
    (tr : List PendEvent) (hnd : s.keys.Nodup) :
    (handleClose s).1.pendingRequests = [] ∧
    (handleClose s).1.container = false ∧
    (handleClose s).2.completions =
      s.pendingRequests.map (fun p => Completion.rejected p.1 "Container crashed") ∧
    (handleClose s).2.clearedTimers = s.pendingRequests.map (·.2) ∧
    ((runPend s tr).2.map Completion.rid).Nodup ∧
    (∀ k, k ∈ (runPend s tr).2.map Completion.rid → k ∈ s.keys) := by
  obtain ⟨a, b, c, d⟩ := handleClose_parts s
  obtain ⟨n1, n2, _, _⟩ := runPend_spec tr s hnd
  exact ⟨a, b, c, d, n1, n2⟩

/-- Concrete two-entry manager state used by the C7 witness. -/
def mgrC7 : MgrState :=
  { container := true, pendingRequests := [("a", 1), ("b", 2)],
    restartAttempts := 0, isShuttingDown := false }

/-- Concrete event trace used by the C7 witness: request `a` times out,
then the worker crashes. -/
def trC7 : List PendEvent :=
  [PendEvent.timeoutFires "a", PendEvent.close]

/-- Witness for C7 at a concrete table and trace. -/
theorem C7_crash_rejects_all_and_settles_once_witness :
    (handleClose mgrC7).1.pendingRequests = [] ∧
    ((runPend mgrC7 trC7).2.map Completion.rid).Nodup := by
  obtain ⟨h1, _, _, _, h5, _⟩ :=
    C7_crash_rejects_all_and_settles_once mgrC7 trC7 (by decide)
  exact ⟨h1, h5⟩

/-! ## Subagent admission control (`container-common.ts`, `TaskManager`) -/

/-- `MAX_CONCURRENT_SUBAGENTS` configuration knob (imported from
`config.ts`); the project default and the claim fix it at 3. -/
def MAX_CONCURRENT_SUBAGENTS : Nat := 3

/-- The `TaskManager` state owning subagent tracking: the
`activeSubagents` map, subagent id ↦ owning chat JID (the abort
controller is irrelevant to admission). -/
structure TMState where
  activeSubagents : List (String × String)
deriving DecidableEq, Repr

/-- The user-visible notice sent when the subagent concurrency limit is
reached (`container-common.ts` line 785), interpolating the current
active count. -/
def limitNotice (assistantName : String) (active : Nat) : String :=
  assistantName ++ ": 当前有 " ++ toString active ++ " 个子任务在运行，请稍后再试。"

/-- Result of processing one `spawn_subagent` IPC command. `spawned`
means a handle was allocated and a container process started;
`limitRejected` carries the `send_message` action emitted to the chat. -/
inductive SpawnOutcome where
  | unauthorized
  | invalidRequest
  | limitRejected (chatJid message : String)
  | groupNotFound
  | spawned (subId chatJid : String)
deriving DecidableEq, Repr

/-- `TaskManager.processTaskIpc`, case `spawn_subagent`
(`container-common.ts` lines 771–874): non-main sources are rejected; a
request missing `task` or `chatJid` is invalid; if
`activeSubagents.size ≥ MAX_CONCURRENT_SUBAGENTS` the command is rejected
immediately with a user-visible message, allocating no handle and spawning
nothing; otherwise, after resolving the target group, a handle is inserted
and the container is spawned in the background. -/
def spawnSubagent (assistantName : String) (registeredGroups : List (String × String))
    (isMain : Bool) (task chatJid : Option String) (freshSubId : String)
    (s : TMState) : TMState × SpawnOutcome :=
  if !isMain then (s, .unauthorized)
  else
    match task, chatJid with
    | some _, some jid =>
      if s.activeSubagents.length ≥ MAX_CONCURRENT_SUBAGENTS then
        (s, .limitRejected jid (limitNotice assistantName s.activeSubagents.length))
      else
        match registeredGroups.lookup jid with
        | none => (s, .groupNotFound)
        | some _ =>
          ({ activeSubagents := (freshSubId, jid) :: s.activeSubagents },
           .spawned freshSubId jid)
    | _, _ => (s, .invalidRequest)

/-- The `finally` block of the background subagent runner: the handle is
removed when the subagent completes. -/
def subagentCompletes (subId : String) (s : TMState) : TMState :=
  { activeSubagents := s.activeSubagents.filter (fun p => p.1 ≠ subId) }

/-- `TaskManager.cancelSubagentsForChat`: aborts and removes every
subagent owned by the given chat. -/
def cancelSubagentsForChat (chatJid : String) (s : TMState) : TMState :=
  { activeSubagents := s.activeSubagents.filter (fun p => p.2 ≠ chatJid) }

/-- Sequential processing of several `spawn_subagent` commands (the
check-then-insert is synchronous within one event-loop turn, so
concurrent commands are processed in sequence). Each command is a triple
(task, chatJid, fresh subagent id). -/
def runSpawns (assistantName : String) (registeredGroups : List (String × String))
    (s : TMState) : List (Option String × Option String × String) →
    TMState × List SpawnOutcome
  | [] => (s, [])
  | (t, j, f) :: rest =>
    ((runSpawns assistantName registeredGroups
        (spawnSubagent assistantName registeredGroups true t j f s).1 rest).1,
     (spawnSubagent assistantName registeredGroups true t j f s).2 ::
       (runSpawns assistantName registeredGroups
         (spawnSubagent assistantName registeredGroups true t j f s).1 rest).2)

/-- **C2.** Admission control for subagents: (1) a spawn never pushes the
active-subagent count above `MAX_CONCURRENT_SUBAGENTS` — the bound is
checked before creation; (2) a privileged `spawn_subagent` arriving with
the count already at the limit is rejected immediately with the
user-visible limit notice and the state unchanged (no handle allocated, no
process spawned); (3) completions and cancellations only shrink the set,
so `|activeSubagents| ≤ limit` holds at every instant; (4) with the limit
at 3, four spawn commands processed from an empty set yield exactly three
`spawned` outcomes and one immediate rejection, leaving three handles. -/
theorem C2_subagent_admission_control (an : String) (regs : List (String × String))
    (s : TMState) (task chatJid : Option String) (fresh : String) :
    (s.activeSubagents.length ≤ MAX_CONCURRENT_SUBAGENTS →
      (spawnSubagent an regs true task chatJid fresh s).1.activeSubagents.length
        ≤ MAX_CONCURRENT_SUBAGENTS) ∧
    (∀ t jid, task = some t → chatJid = some jid →
      s.activeSubagents.length = MAX_CONCURRENT_SUBAGENTS →
      spawnSubagent an regs true task chatJid fresh s =
        (s, .limitRejected jid (limitNotice an MAX_CONCURRENT_SUBAGENTS))) ∧
    ((subagentCompletes fresh s).activeSubagents.length ≤ s.activeSubagents.length ∧
     ∀ jid, (cancelSubagentsForChat jid s).activeSubagents.length ≤
       s.activeSubagents.length) ∧
    ((runSpawns "Andy" [("jid1", "main")] { activeSubagents := [] }
        [(some "t1", some "jid1", "s1"), (some "t2", some "jid1", "s2"),
         (some "t3", some "jid1", "s3"), (some "t4", some "jid1", "s4")]).2 =
      [.spawned "s1" "jid1", .spawned "s2" "jid1", .spawned "s3" "jid1",
       .limitRejected "jid1" (limitNotice "Andy" 3)] ∧
     (runSpawns "Andy" [("jid1", "main")] { activeSubagents := [] }
        [(some "t1", some "jid1", "s1"), (some "t2", some "jid1", "s2"),
         (some "t3", some "jid1", "s3"), (some "t4", some "jid1", "s4")]
       ).1.activeSubagents.length = 3) := by
  refine ⟨?_, ?_, ⟨?_, ?_⟩, by constructor <;> rfl⟩
  · intro hle
    rcases task with _ | t <;> rcases chatJid with _ | j <;>
      simp only [spawnSubagent, Bool.not_true, if_neg (by simp : ¬(false = true))]
    · exact hle
    · exact hle
    · exact hle
    · by_cases hge : s.activeSubagents.length ≥ MAX_CONCURRENT_SUBAGENTS
      · simpa [hge] using hle
      · cases hL : regs.lookup j with
        | none => simpa [hge, hL] using hle
        | some g =>
          simp only [hge, if_false, hL, List.length_cons]
          omega
  · intro t jid ht hj hlen
    subst ht hj
    simp [spawnSubagent, hlen]
  · exact List.length_filter_le _ _
  · intro jid
    exact List.length_filter_le _ _

/-- Witness for C2 at a concrete full table: with three active subagents,
a fourth privileged spawn is rejected with the limit notice and no state
change. -/
theorem C2_subagent_admission_control_witness :
    spawnSubagent "Andy" [("jid1", "main")] true (some "t4") (some "jid1") "s4"
      { activeSubagents := [("s1", "jid1"), ("s2", "jid1"), ("s3", "jid1")] } =
    ({ activeSubagents := [("s1", "jid1"), ("s2", "jid1"), ("s3", "jid1")] },
     .limitRejected "jid1" (limitNotice "Andy" 3)) := by
  exact (C2_subagent_admission_control "Andy" [("jid1", "main")]
    { activeSubagents := [("s1", "jid1"), ("s2", "jid1"), ("s3", "jid1")] }
    (some "t4") (some "jid1") "s4").2.1 "t4" "jid1" rfl rfl (by decide)

/-! ## Mailbox (IPC) command processing (`index.ts` lines 311–744;
`container-common.ts` lines 609–731 is an identical copy of the task
command logic) -/

/-- A row of the `tasks` store (`ScheduledTask`). Times are epoch
milliseconds. -/
structure ScheduledTask where
  id : String
  group_folder : String
  chat_jid : String
  prompt : String
  schedule_type : String
  schedule_value : String
  context_mode : String
  next_run : Option Nat
  status : String
  created_at : Nat
deriving DecidableEq, Repr

/-- The orchestrator state a mailbox command may mutate: the task store
and the outbound messages sent so far (chat JID, text). -/
structure RouterState where
  tasks : List ScheduledTask
  sentMessages : List (String × String)
deriving DecidableEq, Repr

/-- The payload of a task-queue IPC file (`processTaskIpc`'s `data`
argument). `sourceGroup` and `isMain` are *not* part of it: they are
derived from the IPC directory name by the watcher. -/
structure TaskIpcData where
  type : String
  taskId : Option String
  prompt : Option String
  schedule_type : Option String
  schedule_value : Option String
  context_mode : Option String
  groupFolder : Option String
  chatJid : Option String
deriving DecidableEq, Repr

/-- External collaborators of the `schedule_task` handler, as oracles:
the registered-groups registry (JID ↦ folder), the clock, the cron parser
(`CronExpressionParser.parse(v, {tz}).next()`, `none` when `parse`
throws), JavaScript `Date` parsing (`none` for an invalid timestamp), and
the generated task id. -/
structure SchedulingEnv where
  regs : List (String × String)
  now : Nat
  cronNext : String → Option Nat
  parseDate : String → Option Nat
  freshTaskId : String

/-- Value of the leading run of decimal digits; `none` when it is empty. -/
def digitsVal (cs : List Char) : Option Nat :=
  let ds := cs.takeWhile (fun c => c.isDigit)
  if ds.isEmpty then none
  else some (ds.foldl (fun acc c => acc * 10 + (c.toNat - 48)) 0)

/-- JavaScript `parseInt(v, 10)`: skip leading whitespace, optional sign,
then the value of the leading digit run; `NaN` (`none`) when there are no
digits. -/
def jsParseInt (v : String) : Option Int :=
  match v.data.dropWhile (fun c => c == ' ' || c == '\t' || c == '\n' || c == '\r') with
  | '-' :: rest => (digitsVal rest).map (fun n => -(n : Int))
  | '+' :: rest => (digitsVal rest).map (fun n => (n : Int))
  | rest => (digitsVal rest).map (fun n => (n : Int))

/-- `Object.entries(registeredGroups).find(([, g]) => g.folder ===
targetGroup)?.[0]` — resolve the JID of the first registered group with
the given folder. -/
def lookupJidByFolder (regs : List (String × String)) (folder : String) : Option String :=
  (regs.find? (fun p => p.2 == folder)).map (·.1)

/-- The schedule-validation block of the `schedule_task` case.
`none` means validation failed (a `break` path: unparsable cron
expression, `parseInt` NaN or non-positive interval, invalid `Date`);
`some nr` proceeds to creation with `next_run = nr`. An unrecognized
schedule type leaves `next_run` as `null` (`some none`), as the source
does. -/
def computeNextRun (env : SchedulingEnv) (stype sval : String) : Option (Option Nat) :=
  if stype = "cron" then
    match env.cronNext sval with
    | none => none
    | some t => some (some t)
  else if stype = "interval" then
    match jsParseInt sval with
    | none => none
    | some ms => if ms ≤ 0 then none else some (some (env.now + ms.toNat))
  else if stype = "once" then
    match env.parseDate sval with
    | none => none
    | some t => some (some t)
  else some none

/-- The `context_mode` normalization at creation. -/
def normContextMode (cm : Option String) : String :=
  if cm = some "group" ∨ cm = some "isolated" then cm.getD "isolated" else "isolated"

/-- `processTaskIpc`, case `schedule_task` (`index.ts` lines 460–550):
guard on required fields; non-main sources may only schedule for their own
folder; the target JID is re-derived from the registry (the payload is not
trusted) and creation is skipped when the target folder is not registered;
the schedule is validated; only then is the task created, `active`, with
the computed `next_run`. -/
def scheduleTaskCmd (env : SchedulingEnv) (data : TaskIpcData)
    (sourceGroup : String) (isMain : Bool) (s : RouterState) : RouterState :=
  match data.prompt, data.schedule_type, data.schedule_value, data.groupFolder with
  | some prompt, some stype, some sval, some targetGroup =>
    if ¬isMain ∧ targetGroup ≠ sourceGroup then s
    else
      match lookupJidByFolder env.regs targetGroup with
      | none => s
      | some targetJid =>
        match computeNextRun env stype sval with
        | none => s
        | some nr =>
          { s with tasks := s.tasks ++
              [{ id := env.freshTaskId, group_folder := targetGroup,
                 chat_jid := targetJid, prompt := prompt, schedule_type := stype,
                 schedule_value := sval, context_mode := normContextMode data.context_mode,
                 next_run := nr, status := "active", created_at := env.now }] }
  | _, _, _, _ => s

/-- `processTaskIpc`, cases `pause_task` / `resume_task` (`index.ts`
lines 552–586): look the task up; mutate its status only when the source
is main or owns the task; otherwise warn and drop. -/
def setTaskStatusCmd (newStatus : String) (data : TaskIpcData)
    (sourceGroup : String) (isMain : Bool) (s : RouterState) : RouterState :=
  match data.taskId with
  | none => s
  | some tid =>
    match s.tasks.find? (fun t => t.id == tid) with
    | some t =>
      if isMain ∨ t.group_folder = sourceGroup then
        { s with tasks :=
            s.tasks.map (fun u => if u.id == tid then { u with status := newStatus } else u) }
      else s
    | none => s

/-- `processTaskIpc`, case `cancel_task` (`index.ts` lines 588–604):
delete the task only when the source is main or owns it. -/
def cancelTaskCmd (data : TaskIpcData) (sourceGroup : String) (isMain : Bool)
    (s : RouterState) : RouterState :=
  match data.taskId with
  | none => s
  | some tid =>
    match s.tasks.find? (fun t => t.id == tid) with
    | some t =>
      if isMain ∨ t.group_folder = sourceGroup then
        { s with tasks := s.tasks.filter (fun u => u.id ≠ tid) }
      else s
    | none => s

/-- The task-store-relevant dispatch of `processTaskIpc`. The remaining
command types (`refresh_groups`, `register_group`, `spawn_subagent`,
unknown) touch neither the task store nor this message log on their
authorization-relevant paths; subagent admission is modelled separately
by `spawnSubagent`. -/
def processTaskIpc (env : SchedulingEnv) (data : TaskIpcData)
    (sourceGroup : String) (isMain : Bool) (s : RouterState) : RouterState :=
  if data.type = "schedule_task" then scheduleTaskCmd env data sourceGroup isMain s
  else if data.type = "pause_task" then setTaskStatusCmd "paused" data sourceGroup isMain s
  else if data.type = "resume_task" then setTaskStatusCmd "active" data sourceGroup isMain s
  else if data.type = "cancel_task" then cancelTaskCmd data sourceGroup isMain s
  else s

/-- The `message` branch of the IPC watcher (`index.ts` lines 341–365):
the source group is the IPC *directory name*; the message is sent only if
the source is main or the target chat's registered folder equals the
source group; otherwise it is dropped with a warning. -/
def processIpcMessage (assistantName : String) (regs : List (String × String))
    (sourceGroup : String) (isMain : Bool) (chatJid text : String)
    (s : RouterState) : RouterState :=
  if isMain || ((regs.lookup chatJid).map (fun f => f == sourceGroup)).getD false then
    { s with sentMessages := s.sentMessages ++ [(chatJid, assistantName ++ ": " ++ text)] }
  else s

/-- One mailbox file: an outbound message or a task command. -/
inductive IpcFile where
  | message (chatJid text : String)
  | taskCmd (data : TaskIpcData)

/-- Processing one mailbox file found in `sourceGroup`'s IPC directory. -/
def processIpcFile (assistantName : String) (env : SchedulingEnv)
    (sourceGroup : String) (isMain : Bool) (s : RouterState) :
    IpcFile → RouterState
  | .message chatJid text =>
    processIpcMessage assistantName env.regs sourceGroup isMain chatJid text s
  | .taskCmd data => processTaskIpc env data sourceGroup isMain s

/-- The target namespace folder a mailbox file addresses, as the code
derives it: the registered folder of the message's chat JID, the
`groupFolder` field for `schedule_task`, and the owning folder of the
referenced task for `pause_task`/`resume_task`/`cancel_task`. -/
def derivedTargetFolder (env : SchedulingEnv) (s : RouterState) :
    IpcFile → Option String
  | .message chatJid _ => env.regs.lookup chatJid
  | .taskCmd data =>
    if data.type = "schedule_task" then data.groupFolder
    else if data.type = "pause_task" ∨ data.type = "resume_task"
        ∨ data.type = "cancel_task" then
      match data.taskId with
      | some tid => (s.tasks.find? (fun t => t.id == tid)).map (·.group_folder)
      | none => none
    else none

/-- **C3.** Namespace authorization: a mailbox command (message send,
`schedule_task`, `pause_task`, `resume_task`, `cancel_task`) whose source
group — derived from the IPC directory, never from the payload — is
non-privileged and whose derived target folder differs from the source is
dropped with no state change: nothing is sent and no task is created,
updated or deleted. The privileged (main) source may target any chat: its
message sends always go through. -/
theorem C3_namespace_authorization (an : String) (env : SchedulingEnv)
    (sourceGroup : String) (s : RouterState) (file : IpcFile) :
    (∀ f, derivedTargetFolder env s file = some f → f ≠ sourceGroup →
      processIpcFile an env sourceGroup false s file = s) ∧
    (∀ chatJid text,
      processIpcFile an env sourceGroup true s (.message chatJid text) =
        { s with sentMessages := s.sentMessages ++ [(chatJid, an ++ ": " ++ text)] }) := by
  constructor
  · intro f hf hne
    cases file with
    | message chatJid text =>
      simp only [derivedTargetFolder] at hf
      simp only [processIpcFile, processIpcMessage, hf]
      simp [show (f == sourceGroup) = false by simpa using hne]
    | taskCmd data =>
      simp only [derivedTargetFolder] at hf
      by_cases h1 : data.type = "schedule_task"
      · rw [if_pos h1] at hf
        simp only [processIpcFile, processTaskIpc, if_pos h1]
        rcases hp : data.prompt with _ | p <;>
          rcases hst : data.schedule_type with _ | st <;>
            rcases hsv : data.schedule_value with _ | sv <;>
              simp [scheduleTaskCmd, hp, hst, hsv, hf, hne]
      · rw [if_neg h1] at hf
        by_cases h2 : data.type = "pause_task" ∨ data.type = "resume_task"
            ∨ data.type = "cancel_task"
        · rw [if_pos h2] at hf
          rcases htid : data.taskId with _ | tid
          · rw [htid] at hf; simp at hf
          · simp only [htid] at hf
            rcases hfind : s.tasks.find? (fun t => t.id == tid) with _ | t
            · rw [hfind] at hf; simp at hf
            · rw [hfind] at hf
              have hgf : t.group_folder = f := by simpa using hf
              simp only [processIpcFile, processTaskIpc]
              rcases h2 with h2 | h2 | h2 <;>
                simp [h1, h2, setTaskStatusCmd, cancelTaskCmd, htid, hfind, hgf, hne]
        · rw [if_neg h2] at hf
          simp at hf
  · intro chatJid text
    simp [processIpcFile, processIpcMessage]

/-- Registry used by the C3 witness: two registered chats with distinct
folders. -/
def envC3 : SchedulingEnv :=
  { regs := [("jidA", "alpha"), ("jidB", "beta")], now := 0,
    cronNext := fun _ => none, parseDate := fun _ => none, freshTaskId := "t" }

/-- Empty router state used by the C3 witness. -/
def stC3 : RouterState := { tasks := [], sentMessages := [] }

/-- Witness for C3: non-privileged `alpha` cannot message `beta`'s chat
(dropped, no state change), while the privileged source can. -/
theorem C3_namespace_authorization_witness :
    processIpcFile "Andy" envC3 "alpha" false stC3 (.message "jidB" "hi") = stC3 ∧
    processIpcFile "Andy" envC3 "main" true stC3 (.message "jidB" "hi") =
      { stC3 with sentMessages := [("jidB", "Andy: hi")] } := by
  constructor
  · exact (C3_namespace_authorization "Andy" envC3 "alpha" stC3
      (.message "jidB" "hi")).1 "beta" (by decide) (by decide)
  · have h := (C3_namespace_authorization "Andy" envC3 "main" stC3
      (.message "jidB" "hi")).2 "jidB" "hi"
    simpa using h

/-- **C5.** The chat JID stored in a task created by `schedule_task` is
re-derived from the registered-groups registry by looking up the target
folder: if no registered group has that folder, no task is created; any
task the command adds carries the registry-derived JID; and the result is
completely independent of the `chatJid` field of the command payload. -/
theorem C5_chat_jid_rederived_from_registry (env : SchedulingEnv) (data : TaskIpcData)
    (sourceGroup : String) (isMain : Bool) (s : RouterState) (g : String)
    (hg : data.groupFolder = some g) :
    (lookupJidByFolder env.regs g = none →
      (scheduleTaskCmd env data sourceGroup isMain s).tasks = s.tasks) ∧
    (∀ jid, lookupJidByFolder env.regs g = some jid →
      ∀ t ∈ (scheduleTaskCmd env data sourceGroup isMain s).tasks,
        t ∈ s.tasks ∨ t.chat_jid = jid) ∧
    (∀ j, scheduleTaskCmd env { data with chatJid := j } sourceGroup isMain s =
      scheduleTaskCmd env data sourceGroup isMain s) := by
  refine ⟨?_, ?_, ?_⟩
  · intro hnone
    rcases hp : data.prompt with _ | p
    · simp [scheduleTaskCmd, hp]
    rcases hst : data.schedule_type with _ | st
    · simp [scheduleTaskCmd, hp, hst]
    rcases hsv : data.schedule_value with _ | sv
    · simp [scheduleTaskCmd, hp, hst, hsv]
    simp only [scheduleTaskCmd, hp, hst, hsv, hg]
    split
    · rfl
    · rw [hnone]
  · intro jid hjid t ht
    rcases hp : data.prompt with _ | p
    · simp only [scheduleTaskCmd, hp] at ht; exact Or.inl ht
    rcases hst : data.schedule_type with _ | st
    · simp only [scheduleTaskCmd, hp, hst] at ht; exact Or.inl ht
    rcases hsv : data.schedule_value with _ | sv
    · simp only [scheduleTaskCmd, hp, hst, hsv] at ht; exact Or.inl ht
    simp only [scheduleTaskCmd, hp, hst, hsv, hg] at ht
    split at ht
    · exact Or.inl ht
    · simp only [hjid] at ht
      rcases hnr : computeNextRun env st sv with _ | nr
      · simp only [hnr] at ht; exact Or.inl ht
      · simp only [hnr] at ht
        simp at ht
        rcases ht with ht | rfl
        · exact Or.inl ht
        · right; rfl
  · intro j
    cases data
    rfl

/-- Environment for the C5 witness: one registered group, folder
`alpha` owned by chat `realJid`. -/
def envC5 : SchedulingEnv :=
  { regs := [("realJid", "alpha")], now := 0,
    cronNext := fun _ => none, parseDate := fun _ => none, freshTaskId := "t1" }

/-- A `schedule_task` payload whose `chatJid` field carries a spoofed
JID. -/
def dataC5 : TaskIpcData :=
  { type := "schedule_task", taskId := none, prompt := some "p",
    schedule_type := some "interval", schedule_value := some "1000",
    context_mode := none, groupFolder := some "alpha", chatJid := some "spoofedJid" }

/-- Empty router state used by the C5 witness. -/
def stC5 : RouterState := { tasks := [], sentMessages := [] }

/-- Witness for C5: any task the command creates carries the
registry-derived JID `realJid`, and the spoofed payload JID is ignored
entirely. -/
theorem C5_chat_jid_rederived_from_registry_witness :
    (∀ t ∈ (scheduleTaskCmd envC5 dataC5 "alpha" false stC5).tasks,
      t ∈ stC5.tasks ∨ t.chat_jid = "realJid") ∧
    scheduleTaskCmd envC5 { dataC5 with chatJid := some "otherSpoof" } "alpha" false stC5 =
      scheduleTaskCmd envC5 dataC5 "alpha" false stC5 := by
  constructor
  · exact (C5_chat_jid_rederived_from_registry envC5 dataC5 "alpha" false stC5
      "alpha" rfl).2.1 "realJid" (by decide)
  · exact (C5_chat_jid_rederived_from_registry envC5 dataC5 "alpha" false stC5
      "alpha" rfl).2.2 (some "otherSpoof")

/-- **C8.** Schedule validation at creation: an unparsable cron
expression, a non-numeric or non-positive interval, or an invalid `once`
timestamp makes the validation block fail, in which case `schedule_task`
returns with the state unchanged — no task is ever persisted. For valid
schedules, the task is created (`active`) with `next_run` equal to the
next cron occurrence in the configured timezone, `now` plus the interval
in milliseconds, or the given timestamp, respectively. -/
theorem C8_schedule_validation (env : SchedulingEnv) (data : TaskIpcData)
    (sourceGroup : String) (isMain : Bool) (s : RouterState) :
    (∀ sval, env.cronNext sval = none → computeNextRun env "cron" sval = none) ∧
    (∀ sval t, env.cronNext sval = some t →
      computeNextRun env "cron" sval = some (some t)) ∧
    (∀ sval, jsParseInt sval = none → computeNextRun env "interval" sval = none) ∧
    (∀ sval ms, jsParseInt sval = some ms → ms ≤ 0 →
      computeNextRun env "interval" sval = none) ∧
    (∀ sval ms, jsParseInt sval = some ms → 0 < ms →
      computeNextRun env "interval" sval = some (some (env.now + ms.toNat))) ∧
    (∀ sval, env.parseDate sval = none → computeNextRun env "once" sval = none) ∧
    (∀ sval t, env.parseDate sval = some t →
      computeNextRun env "once" sval = some (some t)) ∧
    (∀ prompt stype sval g, data.prompt = some prompt →
      data.schedule_type = some stype → data.schedule_value = some sval →
      data.groupFolder = some g → computeNextRun env stype sval = none →
      scheduleTaskCmd env data sourceGroup isMain s = s) ∧
    (∀ prompt stype sval g jid nr, data.prompt = some prompt →
      data.schedule_type = some stype → data.schedule_value = some sval →
      data.groupFolder = some g → lookupJidByFolder env.regs g = some jid →
      computeNextRun env stype sval = some nr →
      scheduleTaskCmd env data sourceGroup true s =
        { s with tasks := s.tasks ++
            [{ id := env.freshTaskId, group_folder := g, chat_jid := jid,
               prompt := prompt, schedule_type := stype, schedule_value := sval,
               context_mode := normContextMode data.context_mode,
               next_run := nr, status := "active", created_at := env.now }] }) := by
  refine ⟨?_, ?_, ?_, ?_, ?_, ?_, ?_, ?_, ?_⟩
  · intro sval h; simp [computeNextRun, h]
  · intro sval t h; simp [computeNextRun, h]
  · intro sval h; simp [computeNextRun, h]
  · intro sval ms h hle; simp [computeNextRun, h, hle]
  · intro sval ms h hpos
    simp [computeNextRun, h, not_le.mpr hpos]
  · intro sval h; simp [computeNextRun, h]
  · intro sval t h; simp [computeNextRun, h]
  · intro prompt stype sval g hp hst hsv hg hnr
    simp only [scheduleTaskCmd, hp, hst, hsv, hg]
    split
    · rfl
    · cases hL : lookupJidByFolder env.regs g with
      | none => rfl
      | some jid => simp only [hnr]
  · intro prompt stype sval g jid nr hp hst hsv hg hjid hnr
    simp only [scheduleTaskCmd, hp, hst, hsv, hg, hjid, hnr]
    simp

/-- Scheduling environment for the C8 witness: one registered group, a
cron oracle knowing one expression, a date oracle knowing one timestamp. -/
def envC8 : SchedulingEnv :=
  { regs := [("jid1", "main")], now := 50,
    cronNext := fun v => if v = "0 9 * * 1" then some 777 else none,
    parseDate := fun v => if v = "2026-01-01" then some 999 else none,
    freshTaskId := "task-1" }

/-- A well-formed `schedule_task` payload with a valid 60000 ms interval. -/
def dataC8good : TaskIpcData :=
  { type := "schedule_task", taskId := none, prompt := some "p",
    schedule_type := some "interval", schedule_value := some "60000",
    context_mode := none, groupFolder := some "main", chatJid := none }

/-- The same payload with a non-positive interval. -/
def dataC8bad : TaskIpcData :=
  { dataC8good with schedule_value := some "-5" }

/-- Empty router state used by the C8 witness. -/
def stC8 : RouterState := { tasks := [], sentMessages := [] }

/-- Witness for C8: the `-5` interval is rejected with no task persisted;
the `60000` interval creates one active task with
`next_run = 50 + 60000`. -/
theorem C8_schedule_validation_witness :
    scheduleTaskCmd envC8 dataC8bad "main" true stC8 = stC8 ∧
    scheduleTaskCmd envC8 dataC8good "main" true stC8 =
      { stC8 with tasks :=
          [{ id := "task-1", group_folder := "main", chat_jid := "jid1",
             prompt := "p", schedule_type := "interval", schedule_value := "60000",
             context_mode := "isolated", next_run := some 60050, status := "active",
             created_at := 50 }] } := by
  constructor
  · exact (C8_schedule_validation envC8 dataC8bad "main" true stC8).2.2.2.2.2.2.2.1
      "p" "interval" "-5" "main" rfl rfl rfl rfl rfl
  · exact (C8_schedule_validation envC8 dataC8good "main" true stC8).2.2.2.2.2.2.2.2
      "p" "interval" "60000" "main" "jid1" (some 60050) rfl rfl rfl rfl rfl rfl

/-! ## Telegram message chunking (`index.ts`, `sendMessage`,
lines 278–309) -/

/-- The Telegram per-message character limit (`MAX_LEN`). -/
def MAX_LEN : Nat := 4096

/-- Index of the last newline in a character list (`none` when there is
none — JavaScript's `-1`). -/
def lastNlIdx : List Char → Option Nat
  | [] => none
  | c :: rest =>
    match lastNlIdx rest with
    | some i => some (i + 1)
    | none => if c == '\n' then some 0 else none

/-- `remaining.lastIndexOf(c, limit)`: index of the last newline at
position ≤ `limit`. -/
def lastNewlineUpTo (cs : List Char) (limit : Nat) : Option Nat :=
  lastNlIdx (cs.take (limit + 1))

/-- The `while (remaining.length > 0)` chunking loop of `sendMessage`:
each produced chunk is paired with a flag recording whether the splitting
newline was removed after it. A newline at index past `MAX_LEN / 2` and
within the limit splits there (dropping the newline); otherwise a plain
`MAX_LEN`-character cut is made. -/
def splitLoop (remaining : List Char) : List (List Char × Bool) :=
  if h0 : remaining.length = 0 then []
  else if h1 : remaining.length ≤ MAX_LEN then [(remaining, false)]
  else
    match lastNewlineUpTo remaining MAX_LEN with
    | some i =>
      if MAX_LEN / 2 < i then
        (remaining.take i, true) :: splitLoop (remaining.drop (i + 1))
      else
        (remaining.take MAX_LEN, false) :: splitLoop (remaining.drop MAX_LEN)
    | none => (remaining.take MAX_LEN, false) :: splitLoop (remaining.drop MAX_LEN)
termination_by remaining.length
decreasing_by
  all_goals simp only [List.length_drop, MAX_LEN] at *
  all_goals omega

/-- `sendMessage`: a text within the limit is sent as a single message;
a longer text goes through the chunking loop. -/
def sendMessageChunks (text : List Char) : List (List Char × Bool) :=
  if text.length ≤ MAX_LEN then [(text, false)] else splitLoop text

/-- Concatenate chunks in order, restoring the newline removed at each
newline split. -/
def rejoinChunks : List (List Char × Bool) → List Char
  | [] => []
  | (c, b) :: rest => c ++ (if b then '\n' :: rejoinChunks rest else rejoinChunks rest)

theorem lastNlIdx_spec : ∀ (cs : List Char) (i : Nat), lastNlIdx cs = some i →
    i < cs.length ∧ cs[i]? = some '\n' := by
  intro cs
  induction cs with
  | nil => intro i h; simp [lastNlIdx] at h
  | cons c rest ih =>
    intro i h
    simp only [lastNlIdx] at h
    cases hr : lastNlIdx rest with
    | some j =>
      rw [hr] at h
      obtain ⟨hj, hget⟩ := ih j hr
      obtain rfl : j + 1 = i := by simpa using h
      refine ⟨by simpa using Nat.succ_lt_succ hj, ?_⟩
      simpa using hget
    | none =>
      rw [hr] at h
      by_cases hc : c == '\n'
      · rw [if_pos hc] at h
        obtain rfl : 0 = i := by simpa using h
        refine ⟨by simp, ?_⟩
        simp only [List.getElem?_cons_zero]
        have : c = '\n' := by simpa using hc
        rw [this]
      · rw [if_neg hc] at h
        exact absurd h (by simp)

theorem decompose_at_nl {cs : List Char} {i : Nat} (hi : i < cs.length)
    (hnl : cs[i]? = some '\n') :
    cs.take i ++ '\n' :: cs.drop (i + 1) = cs := by
  have h1 : cs.drop i = cs[i] :: cs.drop (i + 1) := List.drop_eq_getElem_cons hi
  have h2 : cs[i] = '\n' := by
    have := List.getElem?_eq_getElem hi
    rw [this] at hnl
    simpa using hnl
  rw [h2] at h1
  calc cs.take i ++ '\n' :: cs.drop (i + 1) = cs.take i ++ cs.drop i := by rw [h1]
    _ = cs := List.take_append_drop i cs

theorem lastNewlineUpTo_spec {cs : List Char} {limit i : Nat}
    (h : lastNewlineUpTo cs limit = some i) :
    i ≤ limit ∧ i < cs.length ∧ cs[i]? = some '\n' := by
  obtain ⟨hlt, hget⟩ := lastNlIdx_spec _ _ h
  rw [List.length_take] at hlt
  have hle : i ≤ limit := by omega
  have hlen : i < cs.length := by omega
  refine ⟨hle, hlen, ?_⟩
  rw [List.getElem?_take] at hget
  rw [if_pos (by omega : i < limit + 1)] at hget
  exact hget

theorem splitLoop_chunks_le (remaining : List Char) :
    ∀ p ∈ splitLoop remaining, p.1.length ≤ MAX_LEN := by
  induction remaining using splitLoop.induct with
  | case1 r h0 => simp [splitLoop, h0]
  | case2 r h0 h1 =>
    rw [splitLoop, dif_neg h0, dif_pos h1]
    intro p hp
    simp at hp
    rw [hp]
    exact h1
  | case3 r h0 h1 i hsome hgt ih =>
    rw [splitLoop, dif_neg h0, dif_neg h1]
    simp only [hsome]
    rw [if_pos hgt]
    intro p hp
    rcases List.mem_cons.mp hp with rfl | hp
    · obtain ⟨hle, _, _⟩ := lastNewlineUpTo_spec hsome
      simp only [List.length_take]
      omega
    · exact ih p hp
  | case4 r h0 h1 i hsome hle ih =>
    rw [splitLoop, dif_neg h0, dif_neg h1]
    simp only [hsome]
    rw [if_neg hle]
    intro p hp
    rcases List.mem_cons.mp hp with rfl | hp
    · simp only [List.length_take]; omega
    · exact ih p hp
  | case5 r h0 h1 hnone ih =>
    rw [splitLoop, dif_neg h0, dif_neg h1]
    simp only [hnone]
    intro p hp
    rcases List.mem_cons.mp hp with rfl | hp
    · simp only [List.length_take]; omega
    · exact ih p hp

theorem rejoin_splitLoop (remaining : List Char) :
    rejoinChunks (splitLoop remaining) = remaining := by
  induction remaining using splitLoop.induct with
  | case1 r h0 =>
    rw [splitLoop, dif_pos h0]
    simpa [rejoinChunks] using (List.length_eq_zero.mp h0).symm
  | case2 r h0 h1 =>
    rw [splitLoop, dif_neg h0, dif_pos h1]
    simp [rejoinChunks]
  | case3 r h0 h1 i hsome hgt ih =>
    rw [splitLoop, dif_neg h0, dif_neg h1]
    simp only [hsome]
    rw [if_pos hgt]
    simp only [rejoinChunks, if_pos rfl]
    rw [ih]
    obtain ⟨_, hlen, hnl⟩ := lastNewlineUpTo_spec hsome
    exact decompose_at_nl hlen hnl
  | case4 r h0 h1 i hsome hle ih =>
    rw [splitLoop, dif_neg h0, dif_neg h1]
    simp only [hsome]
    rw [if_neg hle]
    simp only [rejoinChunks, if_neg (by simp : ¬(false = true))]
    rw [ih]
    exact List.take_append_drop MAX_LEN r
  | case5 r h0 h1 hnone ih =>
    rw [splitLoop, dif_neg h0, dif_neg h1]
    simp only [hnone]
    simp only [rejoinChunks, if_neg (by simp : ¬(false = true))]
    rw [ih]
    exact List.take_append_drop MAX_LEN r

/-- **C9.** `sendMessage` chunking: a text of at most 4096 characters is
sent as one message; every chunk of a longer text has at most 4096
characters; concatenating the chunks in order, restoring the newline
removed at each newline split, reproduces the original text; and when the
last newline within the limit lies past half the limit, the split happens
exactly at that newline. -/
theorem C9_sendMessage_chunking (text : List Char) :
    (text.length ≤ MAX_LEN → sendMessageChunks text = [(text, false)]) ∧
    (∀ p ∈ sendMessageChunks text, p.1.length ≤ MAX_LEN) ∧
    rejoinChunks (sendMessageChunks text) = text ∧
    (∀ i, MAX_LEN < text.length → lastNewlineUpTo text MAX_LEN = some i →
      MAX_LEN / 2 < i →
      sendMessageChunks text = (text.take i, true) :: splitLoop (text.drop (i + 1))) := by
  refine ⟨?_, ?_, ?_, ?_⟩
  · intro h; simp [sendMessageChunks, h]
  · unfold sendMessageChunks
    split
    next h =>
      intro p hp
      simp only [List.mem_singleton] at hp
      subst hp
      exact h
    next h => exact splitLoop_chunks_le text
  · unfold sendMessageChunks
    split
    · simp [rejoinChunks]
    · exact rejoin_splitLoop text
  · intro i hlen hsome hgt
    have hne : text.length ≠ 0 := by
      intro h
      rw [h] at hlen
      exact Nat.not_lt_zero _ hlen
    have hnle : ¬text.length ≤ MAX_LEN := Nat.not_le.mpr hlen
    unfold sendMessageChunks
    rw [if_neg hnle, splitLoop, dif_neg hne, dif_neg hnle]
    simp only [hsome]
    rw [if_pos hgt]

/-- Witness for C9 at a concrete short text: sent as a single message and
reconstructed exactly. -/
theorem C9_sendMessage_chunking_witness :
    sendMessageChunks ['h', 'i'] = [(['h', 'i'], false)] ∧
    rejoinChunks (sendMessageChunks ['h', 'i']) = ['h', 'i'] := by
  constructor
  · exact (C9_sendMessage_chunking ['h', 'i']).1 (by decide)
  · exact (C9_sendMessage_chunking ['h', 'i']).2.2.1

/-! ## Container-side persistent mode (agent runner,
`runPersistentMode`) -/

/-- The session id handed to `executeQuery` for a persistent-mode query:
`currentSessionId || request.sessionId` — the runner's pinned session when
one is set, else the request's. -/
def sessionForQuery (currentSessionId reqSessionId : Option String) : Option String :=
  match currentSessionId with
  | some s => some s
  | none => reqSessionId

/-- The post-query update of the pinned session:
`if (output.newSessionId) currentSessionId = output.newSessionId`. -/
def updateCurrentSession (currentSessionId newSessionId : Option String) : Option String :=
  match newSessionId with
  | some n => some n
  | none => currentSessionId

/-- Run a sequence of persistent-mode queries. Each step pairs the
request's `sessionId` field with the `newSessionId` the query reports.
Returns the session ids handed to `executeQuery`, in order, and the final
pinned session id. -/
def runPersistentQueries (currentSessionId : Option String) :
    List (Option String × Option String) → List (Option String) × Option String
  | [] => ([], currentSessionId)
  | (req, rep) :: rest =>
    (sessionForQuery currentSessionId req ::
       (runPersistentQueries (updateCurrentSession currentSessionId rep) rest).1,
     (runPersistentQueries (updateCurrentSession currentSessionId rep) rest).2)

theorem runPersistent_ignores_requests (s : String) :
    ∀ steps : List (Option String × Option String),
      runPersistentQueries (some s) steps =
        runPersistentQueries (some s) (steps.map (fun p => (none, p.2))) := by
  intro steps
  induction steps generalizing s with
  | nil => rfl
  | cons p rest ih =>
    obtain ⟨req, rep⟩ := p
    cases rep with
    | none =>
      simp only [List.map, runPersistentQueries, sessionForQuery, updateCurrentSession]
      rw [ih s]
    | some n =>
      simp only [List.map, runPersistentQueries, sessionForQuery, updateCurrentSession]
      rw [ih n]

/-- **C10.** Persistent-mode session pinning: the first query (no pinned
session yet) uses the request's `sessionId`; once a session id is pinned,
every query resumes it and a `sessionId` supplied in a later request is
ignored — running any query sequence from a pinned session gives exactly
the same resumed ids and final state as the same sequence with every
request's `sessionId` erased; and the pinned id is updated exactly when a
query reports a `newSessionId`. -/
theorem C10_session_pinning (cur req : Option String) (s : String)
    (steps : List (Option String × Option String)) :
    sessionForQuery none req = req ∧
    sessionForQuery (some s) req = some s ∧
    (∀ n, updateCurrentSession cur (some n) = some n) ∧
    updateCurrentSession cur none = cur ∧
    runPersistentQueries (some s) steps =
      runPersistentQueries (some s) (steps.map (fun p => (none, p.2))) := by
  exact ⟨rfl, rfl, fun n => rfl, rfl, runPersistent_ignores_requests s steps⟩

end Nanoclaw
